import Mathlib

/-!
# Shallow embedding of the MediCareAI hybrid retrieval engine

This file embeds the retrieval core of the repository
(`backend/app/services/kb_vectorization_service.py`,
`backend/app/services/vector_embedding_service.py`,
`backend/app/services/smart_rag_selector.py`) as Lean definitions and
proves / refutes the specification claims about it.

Modelling conventions:
* Python strings are Lean `String`s; Python `len`/slicing act on code points,
  so they are modelled through `String.data` (a `List Char`).
* Python `float` arithmetic is modelled exactly: stored vectors are `List ℚ`
  and similarity scores are real numbers (`ℝ`).
* Database state is an explicit list of rows; one committed transaction is one
  state transition.  `await db.rollback()` followed by `raise` is modelled by
  returning the original state together with an `Except.error`.
* A Python exception propagating out of a function is `Except.error`.
-/

namespace MediCareAI

/-- Python `len(s)`: number of code points of `s`. -/
def pyLen (s : String) : Nat := s.data.length

/-- Python slice `s[a:b]` (with `0 ≤ a ≤ b` clamped to the string), over
code points. -/
def pySlice (s : String) (a b : Nat) : String := String.mk ((s.data.drop a).take (b - a))

/-- Helper for Python `text.split(sep)` over code points (structural
recursion so terms reduce): `skip` counts separator characters still to be
consumed after a match (the match's first character is consumed by the
emitting step). -/
def splitOnCharsAux (sep : List Char) : List Char → List Char → Nat → List (List Char)
  | [], acc, _ => [acc.reverse]
  | _ :: rest, acc, skip + 1 => splitOnCharsAux sep rest acc skip
  | ch :: rest, acc, 0 =>
    if sep.isPrefixOf (ch :: rest) then
      acc.reverse :: splitOnCharsAux sep rest [] (sep.length - 1)
    else splitOnCharsAux sep rest (ch :: acc) 0

/-- Python `text.split(sep)` for a nonempty `sep`: split on nonoverlapping
leftmost occurrences. -/
def pySplit (text sep : String) : List String :=
  (splitOnCharsAux sep.data text.data [] 0).map String.mk

/-- Python `sep in text` substring test for a nonempty `sep`:
`sep` occurs in `text` iff `text.split(sep)` has more than one part. -/
def strContains (text sep : String) : Bool := (pySplit text sep).length != 1

/-- The ASCII whitespace stripped by Python `str.strip()` (the inputs in
play contain no exotic Unicode whitespace). -/
def isPyWhitespace (ch : Char) : Bool :=
  ch == ' ' || ch == '\t' || ch == '\n' || ch == '\r' || ch == '\x0b' || ch == '\x0c'

/-- Python `s.strip()`. -/
def pyStrip (s : String) : String :=
  String.mk (((s.data.dropWhile isPyWhitespace).reverse.dropWhile isPyWhitespace).reverse)

/-- Python `s.lower()` (ASCII case mapping; the Chinese keywords in play are
unaffected by case folding). -/
def pyLower (s : String) : String := String.mk (s.data.map Char.toLower)

/-- Python `range(0, stop, step)` for `step > 0`: `0, step, 2*step, …` below
`stop`. -/
def pyRangeUp (stop step : Nat) : List Nat :=
  (List.range ((stop + step - 1) / step)).map (· * step)

/-! ## `DocumentChunker` (kb_vectorization_service.py) -/

/-- Configuration of `DocumentChunker.__init__`.  The constructor performs no
validation of `chunk_overlap` against `chunk_size`. -/
structure DocumentChunker where
  chunk_size : Nat := 1000
  chunk_overlap : Nat := 200
  separators : List String := ["\n## ", "\n### ", "\n\n", "\n", ". ", " "]

/-- The fixed-width overlapping windower shared verbatim by
`DocumentChunker._split_large_text` and `DocumentChunker._split_by_characters`:
`for i in range(0, len(text), chunk_size - overlap): chunk = text[i:i+chunk_size];
if chunk: chunks.append(chunk.strip())`.

The Python `range` raises `ValueError` when its step `chunk_size - overlap`
is zero (modelled as `none`) and is empty when the step is negative
(yielding `some []`). -/
def windowChunks (c : DocumentChunker) (text : String) : Option (List String) :=
  let step : Int := (c.chunk_size : Int) - (c.chunk_overlap : Int)
  if step = 0 then none
  else if step < 0 then some []
  else some ((pyRangeUp (pyLen text) step.toNat).filterMap (fun i =>
    let chunk := pySlice text i (i + c.chunk_size)
    if chunk = "" then none else some (pyStrip chunk)))

/-- `DocumentChunker._split_large_text`. -/
def split_large_text (c : DocumentChunker) (text : String) : Option (List String) :=
  windowChunks c text

/-- `DocumentChunker._split_by_characters`. -/
def split_by_characters (c : DocumentChunker) (text : String) : Option (List String) :=
  windowChunks c text

/-- `DocumentChunker._merge_small_chunks` (default `min_size = 100`). -/
def merge_small_chunks (chunks : List String) (min_size : Nat) : List String :=
  match chunks with
  | [] => []
  | c0 :: rest =>
    let step := fun (st : List String × String) (chunk : String) =>
      if pyLen st.2 < min_size then (st.1, st.2 ++ "\n" ++ chunk)
      else (st.1 ++ [st.2], chunk)
    let fin := rest.foldl step ([], c0)
    fin.1 ++ [fin.2]

/-- One iteration of the `for i, part in enumerate(parts)` loop body of
`DocumentChunker.split_text` (the separator already re-attached to `part`).
State: accumulated `chunks` list and the running `current_chunk` buffer;
`none` models the `ValueError` escaping from `_split_large_text`. -/
def splitTextStep (c : DocumentChunker) (st : List String × String) (part : String) :
    Option (List String × String) :=
  if pyLen st.2 + pyLen part > c.chunk_size then
    let chunks1 := if st.2 ≠ "" then st.1 ++ [pyStrip st.2] else st.1
    if pyLen part > c.chunk_size then
      match split_large_text c part with
      | none => none
      | some subs => some (chunks1 ++ subs, "")
    else some (chunks1, part)
  else some (st.1, st.2 ++ part)

/-- `DocumentChunker.split_text`: empty text yields `[]`; otherwise the first
configured separator occurring in the text drives a greedy accumulation pass
followed by `_merge_small_chunks`; if no separator occurs, fall back to
`_split_by_characters`.  Python `text.split(separator)` re-attaches the
separator to every part except the first. -/
def split_text (c : DocumentChunker) (text : String) : Option (List String) :=
  if text = "" then some []
  else
    match c.separators.find? (fun sep => strContains text sep) with
    | some separator =>
      let parts :=
        match pySplit text separator with
        | [] => []
        | p :: ps => p :: ps.map (fun q => separator ++ q)
      match parts.foldlM (splitTextStep c) ([], "") with
      | none => none
      | some st =>
        let chunks := if st.2 ≠ "" then st.1 ++ [pyStrip st.2] else st.1
        some (merge_small_chunks chunks 100)
    | none => split_by_characters c text

/-! ## Data model (models.py) -/

/-- Row of `knowledge_base_chunks` (models.py `KnowledgeBaseChunk`).
`id` stands in for the `uuid4` primary key (fresh ids are modelled as
deterministic numbers; no claim depends on their values).  The stored
`embedding` JSONB vector is a list of exact rationals, `[]` standing for
both SQL `NULL` and an empty vector (the Python code treats both as falsy
in every use). -/
structure KnowledgeBaseChunk where
  id : Nat
  source_type : String
  disease_id : Option Nat := none
  disease_category : String
  document_title : String
  section_title : String
  chunk_index : Nat
  chunk_text : String
  chunk_text_hash : String
  embedding : List ℚ := []
  embedding_model_id : String := ""
  retrieval_count : Nat := 0
  is_active : Bool
deriving Repr, DecidableEq

/-- Row of `vector_embedding_configs` (models.py `VectorEmbeddingConfig`),
restricted to the fields the embedded services read. -/
structure VectorEmbeddingConfig where
  id : Nat
  name : String := ""
  provider : String := "openai"
  model_id : String := ""
  api_url : String := ""
  vector_dimension : Nat := 1536
  is_active : Bool := false
  is_default : Bool := false
deriving Repr, DecidableEq

/-- `hashlib.sha256(chunk_text.encode()).hexdigest()`, modelled as an
injective content key: SHA-256 is idealized as collision-free, so the hex
digest of a chunk text is represented by the text itself. -/
def sha256_hex (s : String) : String := s

/-! ## `VectorEmbeddingService` (vector_embedding_service.py)

The HTTP embedding endpoint is abstracted as an oracle: `Except.ok` is a
2xx response already normalized to vectors (in request order), and
`Except.error` is any raised exception (`ProviderError` non-2xx, format
error, network failure).  All claims quantify over the oracle. -/

/-- Rows matched by `select(VectorEmbeddingConfig).where(is_default == True,
is_active == True)`. -/
def default_active_configs (cfgs : List VectorEmbeddingConfig) :
    List VectorEmbeddingConfig :=
  cfgs.filter (fun c => c.is_default && c.is_active)

/-- `VectorEmbeddingService.generate_embedding` with `config_id = None`:
look up the active default config via `scalar_one_or_none` (which raises
`MultipleResultsFound` on more than one row), raise `ValueError` when there
is none, else perform the HTTP call (the oracle outcome for the query
text). -/
def generate_embedding (cfgs : List VectorEmbeddingConfig)
    (oracle : Except String (List ℚ)) : Except String (List ℚ) :=
  match default_active_configs cfgs with
  | [] => .error "No active embedding configuration found"
  | [_] => oracle
  | _ => .error "MultipleResultsFound"

/-- `VectorEmbeddingService.generate_embeddings_batch` with
`config_id = None`: empty input short-circuits to `[]`; otherwise the
active default config is required and the texts are sent through the HTTP
batching loop.  The loop either collects every batch's vectors in original
order or raises on the first failing batch, discarding everything — it is
therefore modelled as a single oracle call on the full ordered text list. -/
def generate_embeddings_batch (cfgs : List VectorEmbeddingConfig)
    (oracle : List String → Except String (List (List ℚ)))
    (texts : List String) : Except String (List (List ℚ)) :=
  if texts = [] then .ok []
  else
    match default_active_configs cfgs with
    | [] => .error "No active embedding configuration found"
    | [_] => oracle texts
    | _ => .error "MultipleResultsFound"

/-- `VectorEmbeddingService.get_active_config`: first the active default,
else the first active config (the source orders that fallback query by
`created_at desc`; the stored list order stands in for it). -/
def get_active_config (cfgs : List VectorEmbeddingConfig) :
    Option VectorEmbeddingConfig :=
  match default_active_configs cfgs with
  | c :: _ => some c
  | [] => cfgs.find? (fun c => c.is_active)

/-- `VectorEmbeddingService.set_default`: one committed transaction that
first clears `is_default` on every row having it and then sets
`is_default = True, is_active = True` on the row with the given id. -/
def set_default (cfgs : List VectorEmbeddingConfig) (config_id : Nat) :
    List VectorEmbeddingConfig :=
  (cfgs.map (fun c => if c.is_default then { c with is_default := false } else c)).map
    (fun c => if c.id = config_id then { c with is_default := true, is_active := true } else c)

/-! ## `KnowledgeBaseVectorizationService.vectorize_markdown_document`

`_extract_markdown_sections` is a Python-regex `re.split` over header lines;
its exact lazy-regex behavior is not re-implemented here.  The extractor is a
parameter `extract` producing the `(section_title, section_content)` pairs,
and every claim about ingestion is proved uniformly in it (the claims do not
depend on how sections are delimited, only on the chunk texts produced). -/

/-- Return type of `vectorize_markdown_document`. -/
structure VectorizationReport where
  total_chunks : Nat
  new_chunks : Nat
  duplicates : Nat
  chunk_ids : List Nat
deriving Repr, DecidableEq

/-- The chunk stream produced by the two nested loops of
`vectorize_markdown_document` before deduplication: for each extracted
section, `chunker.split_text` on the section content, keeping
`(section_title, enumerate index i, chunk_text)`.  `none` propagates the
`ValueError` a degenerate chunker configuration can raise inside
`split_text`. -/
def produced_chunks (c : DocumentChunker) (sections : List (String × String)) :
    Option (List (String × Nat × String)) :=
  sections.foldlM
    (fun acc sec => do
      let chunks ← split_text c sec.2
      return acc ++ chunks.enum.map (fun ic => (sec.1, ic.1, ic.2)))
    []

/-- The duplicate test of the staging loop: `select(KnowledgeBaseChunk).where(
chunk_text_hash == text_hash)` — note: with **no** `is_active` filter.  The
row is truthy iff any stored chunk (active or not) carries the hash. -/
def hash_in_store (store : List KnowledgeBaseChunk) (h : String) : Bool :=
  store.any (fun ch => ch.chunk_text_hash == h)

/-- The `KnowledgeBaseChunk(...)` record built for one staged chunk
(un-embedded, `is_active = True`); the fresh `uuid4` id is modelled by the
staging position `jp.1`. -/
def mk_staged_chunk (document_title disease_category : String)
    (disease_id : Option Nat) (source_type : String)
    (jp : Nat × (String × Nat × String)) : KnowledgeBaseChunk :=
  { id := jp.1
    source_type := source_type
    disease_id := disease_id
    disease_category := disease_category
    document_title := document_title
    section_title := jp.2.1
    chunk_index := jp.2.2.1
    chunk_text := jp.2.2.2
    chunk_text_hash := sha256_hex jp.2.2.2
    is_active := true }

/-- The staging loop of `vectorize_markdown_document`: every produced chunk
whose hash is not yet in the store becomes a fresh staged record.  The store
is not written during the loop, so the interleaved per-chunk lookups equal
one filter pass over the produced stream. -/
def stage_chunks (c : DocumentChunker) (store : List KnowledgeBaseChunk)
    (sections : List (String × String)) (document_title disease_category : String)
    (disease_id : Option Nat) (source_type : String) :
    Option (List KnowledgeBaseChunk) :=
  (produced_chunks c sections).map (fun prods =>
    ((prods.filter (fun p => !hash_in_store store (sha256_hex p.2.2))).enum.map
      (mk_staged_chunk document_title disease_category disease_id source_type)))

/-- The embedding-attachment loop `for chunk, embedding in zip(all_chunks,
embeddings): …` followed by `db.add` of **every** staged chunk: `zip`
truncates, so staged chunks beyond the embedding list's length are
persisted with their embedding still `None`. -/
def attach_embeddings (model_id : String) (staged : List KnowledgeBaseChunk)
    (embeddings : List (List ℚ)) : List KnowledgeBaseChunk :=
  ((staged.zip embeddings).map (fun ce =>
    { ce.1 with embedding := ce.2, embedding_model_id := model_id }))
    ++ staged.drop embeddings.length

/-- `KnowledgeBaseVectorizationService.vectorize_markdown_document`.

Returns the call outcome together with the committed store state:
* staging raising (`ValueError` from a zero-step chunker `range`) leaves the
  store untouched (nothing was added before the `try` block);
* no staged chunk → early `{'total_chunks': 0, 'new_chunks': 0,
  'duplicates': 0, 'chunk_ids': []}` without touching the store;
* otherwise `generate_embeddings_batch` runs inside `try`: on failure the
  session is rolled back and the exception re-raised (original store); on
  success `zip(all_chunks, embeddings)` attaches vectors (chunks beyond a
  short embedding list keep `None`), every staged chunk is added and the
  transaction committed.  The report fields are the literal source
  expressions over `all_chunks` and `chunk_hashes` — two lists appended in
  the same loop branch. -/
def vectorize_markdown_document (c : DocumentChunker)
    (extract : String → List (String × String))
    (cfgs : List VectorEmbeddingConfig)
    (oracle : List String → Except String (List (List ℚ)))
    (store : List KnowledgeBaseChunk)
    (document_content document_title disease_category : String)
    (disease_id : Option Nat) (source_type : String) :
    Except String VectorizationReport × List KnowledgeBaseChunk :=
  match stage_chunks c store (extract document_content) document_title
      disease_category disease_id source_type with
  | none => (.error "ValueError: range() arg 3 must not be zero", store)
  | some all_chunks =>
    let chunk_hashes := all_chunks.map (fun ch => ch.chunk_text_hash)
    if all_chunks = [] then
      (.ok { total_chunks := 0, new_chunks := 0, duplicates := 0, chunk_ids := [] }, store)
    else
      match generate_embeddings_batch cfgs oracle (all_chunks.map (fun ch => ch.chunk_text)) with
      | .error e => (.error e, store)
      | .ok embeddings =>
        let model_id :=
          match get_active_config cfgs with
          | some cfg => cfg.model_id
          | none => "unknown"
        let embedded := attach_embeddings model_id all_chunks embeddings
        (.ok { total_chunks := all_chunks.length + chunk_hashes.length - all_chunks.length
               new_chunks := all_chunks.length
               duplicates := chunk_hashes.length - all_chunks.length
               chunk_ids := all_chunks.map (fun ch => ch.id) },
         store ++ embedded)

/-! ## `KnowledgeBaseVectorizationService._cosine_similarity` and
`search_similar_chunks`

Vector arithmetic is exact: `sum(a * b for a, b in zip(vec1, vec2))` over
rationals, magnitudes `(sum(a*a))**0.5` as real square roots. -/

/-- `sum(a * b for a, b in zip(vec1, vec2))` — `zip` truncates to the
shorter list. -/
def dotQ : List ℚ → List ℚ → ℚ
  | a :: u, b :: v => a * b + dotQ u v
  | _, _ => 0

/-- `sum(a * a for a in vec)` — the squared magnitude. -/
def magSq (v : List ℚ) : ℚ := dotQ v v

/-- `KnowledgeBaseVectorizationService._cosine_similarity`: `0.0` when either
vector is empty or the lengths differ; `0.0` when either magnitude is zero;
else `dot / (|vec1| * |vec2|)`. -/
noncomputable def cosine_similarity (vec1 vec2 : List ℚ) : ℝ :=
  if vec1 = [] ∨ vec2 = [] ∨ vec1.length ≠ vec2.length then 0
  else if Real.sqrt ((magSq vec1 : ℚ) : ℝ) = 0 ∨ Real.sqrt ((magSq vec2 : ℚ) : ℝ) = 0
    then 0
  else ((dotQ vec1 vec2 : ℚ) : ℝ)
    / (Real.sqrt ((magSq vec1 : ℚ) : ℝ) * Real.sqrt ((magSq vec2 : ℚ) : ℝ))

/-- One returned row of `search_similar_chunks` (the result dict built per
hit, with `similarity_score`). -/
structure SearchResult where
  id : Nat
  text : String
  section_title : String
  document_title : String
  disease_category : String
  similarity_score : ℝ

/-- The category filter of the search query: `is_active == True`, plus
`disease_category == c` when a category is given. -/
def chunkMatchesFilter (dc : Option String) (ch : KnowledgeBaseChunk) : Bool :=
  ch.is_active && (match dc with | some cat => ch.disease_category == cat | none => true)

/-- The scored-candidate pass of `search_similar_chunks`: every fetched chunk
with a truthy `embedding` whose cosine similarity against the query embedding
reaches `min_similarity`, paired with that similarity, in store order. -/
noncomputable def scored_chunks (store : List KnowledgeBaseChunk)
    (query_embedding : List ℚ) (dc : Option String) (min_similarity : ℝ) :
    List (KnowledgeBaseChunk × ℝ) :=
  open Classical in
  (store.filter (chunkMatchesFilter dc)).filterMap (fun ch =>
    if ch.embedding ≠ [] then
      let similarity := cosine_similarity query_embedding ch.embedding
      if min_similarity ≤ similarity then some (ch, similarity) else none
    else none)

/-- The result dict built for one retained hit. -/
def format_result (cs : KnowledgeBaseChunk × ℝ) : SearchResult :=
  { id := cs.1.id, text := cs.1.chunk_text, section_title := cs.1.section_title
    document_title := cs.1.document_title, disease_category := cs.1.disease_category
    similarity_score := cs.2 }

/-- The sort key of `search_similar_chunks`: CPython's `sort(key=similarity,
reverse=True)` is a stable descending sort, i.e. a stable sort on
"similarity at least". -/
noncomputable def simGE (a b : KnowledgeBaseChunk × ℝ) : Bool :=
  open Classical in decide (b.2 ≤ a.2)

/-- The body of `search_similar_chunks` after the query embedding is known:
`scored_chunks.sort(key=similarity, reverse=True)` (CPython's stable sort,
hence `mergeSort` on `similarity ≥`), truncation to `top_k`, result
formatting, and the committed `retrieval_count += 1` on every returned chunk
(chunk identity is the `uuid` primary key). -/
noncomputable def search_core (store : List KnowledgeBaseChunk)
    (query_embedding : List ℚ) (dc : Option String) (top_k : Nat)
    (min_similarity : ℝ) : List SearchResult × List KnowledgeBaseChunk :=
  open Classical in
  let scored := scored_chunks store query_embedding dc min_similarity
  let sorted := scored.mergeSort simGE
  let top := sorted.take top_k
  let results := top.map format_result
  let store' := store.map (fun ch =>
    if top.any (fun cs => cs.1.id == ch.id) then
      { ch with retrieval_count := ch.retrieval_count + 1 }
    else ch)
  (results, store')

/-- `KnowledgeBaseVectorizationService.search_similar_chunks`: embed the
query via `generate_embedding` (which raises without an active default
config and on provider failure), then run the scan.  The raw HTTP outcome
for the query text is the oracle. -/
noncomputable def search_similar_chunks (cfgs : List VectorEmbeddingConfig)
    (oracle : Except String (List ℚ)) (store : List KnowledgeBaseChunk)
    (dc : Option String) (top_k : Nat) (min_similarity : ℝ) :
    Except String (List SearchResult × List KnowledgeBaseChunk) :=
  (generate_embedding cfgs oracle).map (fun q =>
    search_core store q dc top_k min_similarity)

/-! ## `SmartRAGSelector` (smart_rag_selector.py) -/

/-- `SmartRAGSelector.DISEASE_KEYWORDS`: `(category, keywords, priority)`. -/
def DISEASE_KEYWORDS : List (String × List String × Nat) :=
  [ ("respiratory",
     ["咳嗽", "咳痰", "气喘", "呼吸困难", "呼吸", "喘息", "胸闷",
      "肺炎", "哮喘", "支气管炎", "copd", "慢阻肺", "肺",
      "cough", "sputum", "wheeze", "dyspnea", "asthma",
      "pneumonia", "bronchitis", "breathing"], 1),
    ("cardiovascular",
     ["心悸", "胸闷", "胸痛", "心痛", "心绞痛", "心梗",
      "高血压", "心律失常", "心衰", "心力衰竭", "冠心病",
      "heart", "chest pain", "palpitation", "hypertension",
      "arrhythmia", "cardiac", "cardiovascular"], 1),
    ("digestive",
     ["腹痛", "腹泻", "恶心", "呕吐", "消化不良", "胃炎",
      "肝炎", "便秘", "腹胀", "胃痛", "肠炎",
      "abdominal pain", "diarrhea", "nausea", "vomiting",
      "indigestion", "gastritis", "hepatitis"], 1),
    ("pediatric",
     ["儿童", "婴儿", "小儿", "宝宝", "孩子", "发烧",
      "疫苗", "发育", "新生儿", "幼儿",
      "child", "infant", "baby", "pediatric", "vaccine",
      "growth", "development"], 2),
    ("dermatology",
     ["皮疹", "瘙痒", "皮肤", "湿疹", "荨麻疹", "皮炎",
      "痤疮", "痘痘", "红斑", "水泡",
      "rash", "itch", "skin", "eczema", "urticaria",
      "dermatitis", "acne"], 1),
    ("neurological",
     ["头痛", "头晕", "眩晕", "抽搐", "癫痫", "中风",
      "偏瘫", "麻木", "神经痛", "失眠",
      "headache", "dizziness", "seizure", "epilepsy",
      "stroke", "paralysis", "neuralgia", "insomnia"], 1) ]

/-- One value of the `matches` dict of `SmartRAGSelector._match_by_keywords`. -/
structure KeywordMatch where
  score : Nat
  priority : Nat
  matched_keywords : List String
  final_score : Nat
deriving Repr, DecidableEq

/-- The sort key of `_match_by_keywords`: stable descending on
`final_score`. -/
def kwmGE (a b : String × KeywordMatch) : Bool :=
  decide (b.2.final_score ≤ a.2.final_score)

/-- The unsorted `matches` dict of `SmartRAGSelector._match_by_keywords`:
case-insensitive substring count per category, `+2` on `pediatric` when
`patient_age < 18`, kept only when the score is positive, and
`final_score = score * (2 - priority + 1)`. -/
def keyword_candidates (symptoms : String) (patient_age : Option Nat) :
    List (String × KeywordMatch) :=
  let symptoms_lower := pyLower symptoms
  DISEASE_KEYWORDS.filterMap (fun cd =>
    let matched := cd.2.1.filter (fun kw => strContains symptoms_lower (pyLower kw))
    let score0 := matched.length
    let score : Nat :=
      if cd.1 == "pediatric" then
        match patient_age with
        | some a => if a < 18 then score0 + 2 else score0
        | none => score0
      else score0
    if score > 0 then
      some (cd.1, { score := score, priority := cd.2.2, matched_keywords := matched
                    final_score := score * (2 - cd.2.2 + 1) })
    else none)

/-- `SmartRAGSelector._match_by_keywords`: the matches dict re-ordered by
`sorted(..., reverse=True)` (stable) on `final_score`. -/
def match_by_keywords (symptoms : String) (patient_age : Option Nat) :
    List (String × KeywordMatch) :=
  (keyword_candidates symptoms patient_age).mergeSort kwmGE

/-- The sort key of `_search_by_vector`: stable descending on
`similarity_score`. -/
noncomputable def hitGE (a b : SearchResult × String) : Bool :=
  open Classical in decide (b.1.similarity_score ≤ a.1.similarity_score)

/-- `SmartRAGSelector._search_by_vector`: for every candidate category run
`search_similar_chunks(top_k=5, min_similarity=0.6)`; a per-category
exception is caught and that category contributes nothing; hits are tagged
with `source_category` and finally stably sorted by `similarity_score`
descending.  The committed `retrieval_count` updates thread through the
store. -/
noncomputable def search_by_vector (cfgs : List VectorEmbeddingConfig)
    (oracle : Except String (List ℚ)) (store : List KnowledgeBaseChunk)
    (categories : List String) :
    List (SearchResult × String) × List KnowledgeBaseChunk :=
  open Classical in
  let fin := categories.foldl
    (fun (st : List (SearchResult × String) × List KnowledgeBaseChunk) category =>
      match search_similar_chunks cfgs oracle st.2 (some category) 5 0.6 with
      | .ok rs => (st.1 ++ rs.1.map (fun r => (r, category)), rs.2)
      | .error _ => st)
    ([], store)
  (fin.1.mergeSort hitGE, fin.2)

/-- The `selection_reason` strings of the fusion step, modelled structurally:
`keyword kws` is `f"Keyword match: {', '.join(kws[:3])}"`, `vectorDefault`
is `"Vector similarity match"`, and `vector s` is
`f"Vector similarity: {s:.2f}"`.  The source's overwrite guard
`'keyword match' not in reason.lower()` distinguishes exactly the first
constructor. -/
inductive SelectionReason where
  | keyword (kws : List String)
  | vectorDefault
  | vector (similarity : ℝ)

/-- One value of the `sources` dict inside `SmartRAGSelector._fuse_and_rank`. -/
structure FuseEntry where
  keyword_score : Nat
  vector_score : ℝ
  chunks : List (SearchResult × String)
  reason : SelectionReason

/-- The `KnowledgeSource` dataclass. -/
structure KnowledgeSource where
  category : String
  relevance_score : ℝ
  chunks : List (SearchResult × String)
  selection_reason : SelectionReason

/-- The fresh dict value installed for a category first seen through a
vector hit. -/
def freshEntry : FuseEntry :=
  { keyword_score := 0, vector_score := 0, chunks := [], reason := .vectorDefault }

/-- The per-hit mutation of a category's dict value inside `_fuse_and_rank`:
running `max` of `vector_score`, chunk appended, and the reason overwritten
unless it is a keyword reason (the source's guard
`'keyword match' not in reason.lower()`). -/
noncomputable def updEntry (hit : SearchResult × String) (e : FuseEntry) : FuseEntry :=
  { e with
    vector_score := max e.vector_score hit.1.similarity_score
    chunks := e.chunks ++ [hit]
    reason := match e.reason with
      | .keyword kws => .keyword kws
      | _ => .vector hit.1.similarity_score }

/-- Processing of one vector hit inside `_fuse_and_rank`: ensure the dict has
an entry for the chunk's `disease_category`, then update that entry. -/
noncomputable def fuseVectorStep (sources : List (String × FuseEntry))
    (hit : SearchResult × String) : List (String × FuseEntry) :=
  let category := hit.1.disease_category
  let sources1 :=
    if sources.any (fun ce => ce.1 == category) then sources
    else sources ++ [(category, freshEntry)]
  sources1.map (fun ce => if ce.1 == category then (ce.1, updEntry hit ce.2) else ce)

/-- The sort key of `_fuse_and_rank`: stable descending on
`relevance_score`. -/
noncomputable def ksGE (a b : KnowledgeSource) : Bool :=
  open Classical in decide (b.relevance_score ≤ a.relevance_score)

/-- The dict value seeded from one keyword match: its priority-weighted
`final_score`, no vector score yet, and the
`"Keyword match: <first three keywords>"` reason. -/
noncomputable def seedEntry (cm : String × KeywordMatch) : FuseEntry :=
  { keyword_score := cm.2.final_score, vector_score := 0, chunks := []
    reason := .keyword (cm.2.matched_keywords.take 3) }

/-- The `KnowledgeSource` built from one fused dict entry:
`combined_score = keyword_score * 0.6 + vector_score * 0.4`, multiplied by
`1.2` when both scores are positive. -/
noncomputable def mkKnowledgeSource (ce : String × FuseEntry) : KnowledgeSource :=
  open Classical in
  let combined : ℝ := (ce.2.keyword_score : ℝ) * 0.6 + ce.2.vector_score * 0.4
  { category := ce.1
    relevance_score :=
      if 0 < (ce.2.keyword_score : ℝ) ∧ 0 < ce.2.vector_score then combined * 1.2
      else combined
    chunks := ce.2.chunks
    selection_reason := ce.2.reason }

/-- `SmartRAGSelector._fuse_and_rank`: seed the dict from the keyword matches
(in their order), fold the vector hits through `fuseVectorStep`, build the
`KnowledgeSource`s, and stably sort by `relevance_score` descending. -/
noncomputable def fuse_and_rank (keyword_matches : List (String × KeywordMatch))
    (vector_matches : List (SearchResult × String)) : List KnowledgeSource :=
  let sources0 : List (String × FuseEntry) := keyword_matches.map (fun cm =>
    (cm.1, seedEntry cm))
  let sources := vector_matches.foldl fuseVectorStep sources0
  (sources.map mkKnowledgeSource).mergeSort ksGE

/-- Return shape of `SmartRAGSelector.select_knowledge_bases` (the
human-readable `selection_reasoning` string is generated from the selected
sources' scores and reasons and carries no further data; it is omitted). -/
structure SelectOutput where
  sources : List KnowledgeSource
  total_chunks : Nat
  all_matched_categories : List String

/-- `SmartRAGSelector.select_knowledge_bases`: keyword matching, then — when
`use_vector_search` — the vector search, whose failures are swallowed (the
outer `try/except` falls back to keyword-only; `_search_by_vector` already
catches per-category errors, so the selection itself never raises), fusion,
truncation to `top_k`, and the chunk total.  Returned with the committed
store state. -/
noncomputable def select_knowledge_bases (cfgs : List VectorEmbeddingConfig)
    (oracle : Except String (List ℚ)) (store : List KnowledgeBaseChunk)
    (symptoms : String) (patient_age : Option Nat) (_patient_gender : Option String)
    (top_k : Nat)
    (use_vector_search : Bool) : SelectOutput × List KnowledgeBaseChunk :=
  let keyword_matches := match_by_keywords symptoms patient_age
  let vm :=
    if use_vector_search then
      search_by_vector cfgs oracle store (keyword_matches.map (fun cm => cm.1))
    else ([], store)
  let ranked := fuse_and_rank keyword_matches vm.1
  let selected := ranked.take top_k
  ({ sources := selected
     total_chunks := (selected.map (fun s => s.chunks.length)).sum
     all_matched_categories := keyword_matches.map (fun cm => cm.1) },
   vm.2)

/-! ## Theorems -/

/-- Claim C1: atomic ingestion.  For every call to
`vectorize_markdown_document`, if batch embedding generation raises at any
point, then no chunk staged by that call is persisted — the knowledge
store's chunks after the failed call equal the chunks before it, and the
error propagates to the caller. -/
theorem atomic_ingestion (c : DocumentChunker)
    (extract : String → List (String × String)) (cfgs : List VectorEmbeddingConfig)
    (oracle : List String → Except String (List (List ℚ)))
    (store : List KnowledgeBaseChunk) (content title cat : String)
    (did : Option Nat) (st : String) (staged : List KnowledgeBaseChunk) (e : String)
    (hstage : stage_chunks c store (extract content) title cat did st = some staged)
    (hfail : generate_embeddings_batch cfgs oracle
      (staged.map (fun ch => ch.chunk_text)) = .error e) :
    vectorize_markdown_document c extract cfgs oracle store content title cat did st
      = (.error e, store) := by
  have hne : staged ≠ [] := by
    intro hnil
    rw [hnil] at hfail
    simp [generate_embeddings_batch] at hfail
  rw [vectorize_markdown_document, hstage]
  simp only [if_neg hne, hfail]

/-- Witness for C1: a one-chunk document, an active default config, and an
embedding endpoint that raises; ingestion propagates the error and leaves
the (empty) store untouched. -/
theorem atomic_ingestion_witness :
    vectorize_markdown_document {} (fun s => [("General", s)])
      [{ id := 1, is_active := true, is_default := true }]
      (fun _ => .error "ProviderError: 500") [] "x" "T" "respiratory" none
      "disease_guideline"
      = (.error "ProviderError: 500", []) := by
  exact atomic_ingestion {} (fun s => [("General", s)])
    [{ id := 1, is_active := true, is_default := true }]
    (fun _ => .error "ProviderError: 500") [] "x" "T" "respiratory" none
    "disease_guideline"
    [{ id := 0, source_type := "disease_guideline", disease_id := none
       disease_category := "respiratory", document_title := "T"
       section_title := "General", chunk_index := 0, chunk_text := "x"
       chunk_text_hash := "x", is_active := true }]
    "ProviderError: 500" (by decide) rfl

/-- Claim C3 (code bug): the claim says a produced chunk is skipped iff a
chunk with the same hash exists **and is active**, and that every skipped
chunk is counted in `duplicates` with `total_chunks = new_chunks +
duplicates`.  The source deviates twice: the duplicate lookup has no
`is_active` filter, and `chunk_hashes` is appended only in the same branch
that stages a chunk, so the reported `duplicates` is always `0`.  Evaluated
here: a store holding only an **inactive** chunk with the hash of `"x"`
makes ingestion of `"x"` skip the chunk (the claim requires staging it) and
report `total_chunks = 0, new_chunks = 0, duplicates = 0` (the claim
requires the skip to be counted). -/
theorem dedup_report_bug_eval :
    vectorize_markdown_document {} (fun s => [("General", s)]) []
      (fun ts => .ok (ts.map (fun _ => ([1] : List ℚ))))
      [{ id := 7, source_type := "disease_guideline", disease_category := "c"
         document_title := "T", section_title := "G", chunk_index := 0
         chunk_text := "x", chunk_text_hash := "x", is_active := false }]
      "x" "T" "respiratory" none "disease_guideline"
      = (.ok { total_chunks := 0, new_chunks := 0, duplicates := 0, chunk_ids := [] },
         [{ id := 7, source_type := "disease_guideline", disease_category := "c"
            document_title := "T", section_title := "G", chunk_index := 0
            chunk_text := "x", chunk_text_hash := "x", is_active := false }]) := rfl

/-- Claim C9 counterexample: a chunker configured with
`overlap = 6 > chunk_size = 5` is accepted, `split_text` runs on the
nonempty separator-free text `"abc"`, and it silently returns the empty
chunk sequence — no error is raised, refuting both halves of the claim
("rejected as an error", "does not silently return an empty sequence"). -/
theorem chunker_overlap_counterexample :
    split_text { chunk_size := 5, chunk_overlap := 6 } "abc" = some [] := by
  decide

/-- Claim C9 amended: the constructor never validates `overlap` against
`chunk_size`.  On nonempty text containing none of the configured
separators, the fixed-width fallback silently returns the empty sequence
when `overlap > chunk_size` (Python's `range` with a negative step is
empty), and only `overlap = chunk_size` raises — a `ValueError` at split
time (zero `range` step), not at configuration time. -/
theorem chunker_overlap_behavior (c : DocumentChunker) (text : String)
    (hnosep : ∀ sep ∈ c.separators, strContains text sep = false)
    (hne : text ≠ "") :
    (c.chunk_size < c.chunk_overlap → split_text c text = some []) ∧
    (c.chunk_size = c.chunk_overlap → split_text c text = none) := by
  have hfind : c.separators.find? (fun sep => strContains text sep) = none := by
    apply List.find?_eq_none.2
    intro sep hs
    simp [hnosep sep hs]
  constructor
  · intro hlt
    rw [split_text, if_neg hne, hfind, split_by_characters, windowChunks]
    have hstep : (c.chunk_size : Int) - (c.chunk_overlap : Int) < 0 := by
      omega
    rw [if_neg (by omega), if_pos hstep]
  · intro heq
    rw [split_text, if_neg hne, hfind, split_by_characters, windowChunks]
    rw [if_pos (by omega)]

/-- Witness for C9's amended theorem at `chunk_size = 5` with the default
separators and text `"abc"`: `overlap = 6` yields `some []`, `overlap = 5`
yields the `ValueError`. -/
theorem chunker_overlap_behavior_witness :
    split_text { chunk_size := 5, chunk_overlap := 6 } "abcd" = some [] ∧
    split_text { chunk_size := 5, chunk_overlap := 5 } "abcd" = none := by
  constructor
  · exact (chunker_overlap_behavior { chunk_size := 5, chunk_overlap := 6 } "abcd"
      (by decide) (by decide)).1 (by decide)
  · exact (chunker_overlap_behavior { chunk_size := 5, chunk_overlap := 5 } "abcd"
      (by decide) (by decide)).2 (by decide)

/-- Number of configurations that are both active and default. -/
def active_default_count (cfgs : List VectorEmbeddingConfig) : Nat :=
  (cfgs.filter (fun c => c.is_active && c.is_default)).length

/-- `set_default` rewrites rows in place: the id column is untouched. -/
theorem set_default_id_map (cfgs : List VectorEmbeddingConfig) (cid : Nat) :
    (set_default cfgs cid).map (fun c => c.id) = cfgs.map (fun c => c.id) := by
  simp only [set_default, List.map_map]
  apply List.map_congr_left
  intro c _
  by_cases h1 : c.is_default <;> by_cases h2 : c.id = cid <;> simp [h1, h2]

/-- After one `set_default` naming an existing row of an id-unique table,
exactly one row is active-and-default: the named one. -/
theorem set_default_count_one (cfgs : List VectorEmbeddingConfig) (cid : Nat)
    (hnd : (cfgs.map (fun c => c.id)).Nodup)
    (hmem : cid ∈ cfgs.map (fun c => c.id)) :
    active_default_count (set_default cfgs cid) = 1 := by
  have hcount : List.count cid (cfgs.map (fun c => c.id)) = 1 :=
    List.count_eq_one_of_mem hnd hmem
  unfold active_default_count set_default
  rw [List.map_map, ← List.countP_eq_length_filter, List.countP_map]
  rw [List.count, List.countP_map] at hcount
  rw [← hcount]
  apply List.countP_congr
  intro c _
  by_cases h1 : c.is_default <;> by_cases h2 : c.id = cid <;>
    simp [Function.comp, h1, h2]

/-- Claim C6: single-default invariant.  After any nonempty sequence of
`set_default` operations, each naming an existing configuration of an
id-unique table, exactly one configuration is both active and default —
applied to every nonempty prefix this also covers each intermediate
committed state (each `set_default` is a single transaction: the clearing
update and the setting update commit together). -/
theorem set_default_single_default (cfgs : List VectorEmbeddingConfig)
    (ops : List Nat) (hne : ops ≠ [])
    (hnd : (cfgs.map (fun c => c.id)).Nodup)
    (hmem : ∀ o ∈ ops, o ∈ cfgs.map (fun c => c.id)) :
    active_default_count (ops.foldl set_default cfgs) = 1 := by
  induction ops generalizing cfgs with
  | nil => exact absurd rfl hne
  | cons o rest ih =>
    rw [List.foldl_cons]
    by_cases hr : rest = []
    · subst hr
      rw [List.foldl_nil]
      exact set_default_count_one cfgs o hnd (hmem o (List.mem_cons_self o []))
    · refine ih (set_default cfgs o) hr ?_ ?_
      · rw [set_default_id_map]; exact hnd
      · intro o' ho'
        rw [set_default_id_map]
        exact hmem o' (List.mem_cons_of_mem _ ho')

/-- Witness for C6: `set_default(1)` then `set_default(2)` on a two-row
table starting with a default on row 1; after the first operation and after
the second, exactly one active default exists (never zero or two). -/
theorem set_default_single_default_witness :
    active_default_count
      (List.foldl set_default
        [{ id := 1, is_active := true, is_default := true },
         { id := 2, is_active := false, is_default := false }] [1]) = 1 ∧
    active_default_count
      (List.foldl set_default
        [{ id := 1, is_active := true, is_default := true },
         { id := 2, is_active := false, is_default := false }] [1, 2]) = 1 := by
  constructor
  · exact set_default_single_default _ [1] (by decide) (by decide) (by decide)
  · exact set_default_single_default _ [1, 2] (by decide) (by decide) (by decide)

/-- `zip` projects onto a truncation of its first argument. -/
theorem map_fst_zip_eq_take {α β : Type} (l : List α) (l' : List β) :
    (l.zip l').map Prod.fst = l.take l'.length := by
  induction l generalizing l' with
  | nil => simp
  | cons a t ih =>
    cases l' with
    | nil => simp
    | cons b t' => simp [ih]

/-- Attaching embeddings rewrites no hash column: the persisted chunks carry
exactly the staged hashes. -/
theorem attach_embeddings_hash_map (m : String) (staged : List KnowledgeBaseChunk)
    (embs : List (List ℚ)) :
    (attach_embeddings m staged embs).map (fun ch => ch.chunk_text_hash)
      = staged.map (fun ch => ch.chunk_text_hash) := by
  unfold attach_embeddings
  rw [List.map_append, List.map_map]
  have h1 : (staged.zip embs).map
      ((fun ch => ch.chunk_text_hash) ∘ (fun ce =>
        ({ ce.1 with embedding := ce.2, embedding_model_id := m } : KnowledgeBaseChunk)))
      = ((staged.zip embs).map Prod.fst).map (fun ch => ch.chunk_text_hash) := by
    rw [List.map_map]; rfl
  rw [h1, map_fst_zip_eq_take, ← List.map_append, List.take_append_drop]

/-- The hashes of the staged records are the hashes of the kept produced
chunks. -/
theorem staged_hash_map (t cat : String) (did : Option Nat) (st : String)
    (kept : List (String × Nat × String)) :
    (kept.enum.map (mk_staged_chunk t cat did st)).map (fun ch => ch.chunk_text_hash)
      = kept.map (fun p => sha256_hex p.2.2) := by
  rw [List.map_map]
  have h1 : (fun ch => ch.chunk_text_hash) ∘ mk_staged_chunk t cat did st
      = (fun p => sha256_hex p.2.2) ∘ Prod.snd := rfl
  rw [h1, ← List.map_map, List.enum_map_snd]

/-- The duplicate test succeeds exactly on the hash column of the store. -/
theorem hash_in_store_iff (s : List KnowledgeBaseChunk) (h : String) :
    hash_in_store s h = true ↔ h ∈ s.map (fun ch => ch.chunk_text_hash) := by
  simp only [hash_in_store, List.any_eq_true, beq_iff_eq, List.mem_map]

/-- Claim C8: idempotent ingestion.  If a call to
`vectorize_markdown_document` committed successfully, re-ingesting the
identical document (same content, title, category, source type) against the
resulting store stages nothing: the second call returns
`new_chunks = 0` (indeed the all-zero report) and leaves the store as it
was. -/
theorem idempotent_ingestion (c : DocumentChunker)
    (extract : String → List (String × String)) (cfgs : List VectorEmbeddingConfig)
    (oracle : List String → Except String (List (List ℚ)))
    (store : List KnowledgeBaseChunk) (content title cat : String)
    (did : Option Nat) (st : String) (rep1 : VectorizationReport)
    (store1 : List KnowledgeBaseChunk)
    (h : vectorize_markdown_document c extract cfgs oracle store content title cat did st
      = (.ok rep1, store1)) :
    vectorize_markdown_document c extract cfgs oracle store1 content title cat did st
      = (.ok { total_chunks := 0, new_chunks := 0, duplicates := 0, chunk_ids := [] },
         store1) := by
  cases hp : produced_chunks c (extract content) with
  | none =>
    rw [vectorize_markdown_document] at h
    have hs : stage_chunks c store (extract content) title cat did st = none := by
      rw [stage_chunks, hp]; rfl
    rw [hs] at h
    simp at h
  | some prods =>
    have hs1 : stage_chunks c store (extract content) title cat did st
        = some ((prods.filter (fun p =>
            !hash_in_store store (sha256_hex p.2.2))).enum.map
              (mk_staged_chunk title cat did st)) := by
      rw [stage_chunks, hp]; rfl
    simp only [vectorize_markdown_document, hs1] at h
    by_cases hk : (prods.filter (fun p =>
        !hash_in_store store (sha256_hex p.2.2))).enum.map
          (mk_staged_chunk title cat did st) = []
    · rw [if_pos hk] at h
      have h2 : store = store1 := congrArg Prod.snd h
      subst h2
      simp only [vectorize_markdown_document, hs1, if_pos hk]
    · rw [if_neg hk] at h
      cases hb : generate_embeddings_batch cfgs oracle
          (((prods.filter (fun p =>
            !hash_in_store store (sha256_hex p.2.2))).enum.map
              (mk_staged_chunk title cat did st)).map (fun ch => ch.chunk_text)) with
      | error e =>
        rw [hb] at h
        have hcontra : (Except.error e : Except String VectorizationReport)
            = Except.ok rep1 := congrArg Prod.fst h
        exact absurd hcontra (by simp)
      | ok embs =>
        simp only [hb] at h
        have h2 : store ++ attach_embeddings
            (match get_active_config cfgs with
             | some cfg => cfg.model_id
             | none => "unknown")
            ((prods.filter (fun p =>
              !hash_in_store store (sha256_hex p.2.2))).enum.map
                (mk_staged_chunk title cat did st)) embs = store1 :=
          congrArg Prod.snd h
        subst h2
        have hcover : ∀ p ∈ prods, hash_in_store
            (store ++ attach_embeddings
              (match get_active_config cfgs with
               | some cfg => cfg.model_id
               | none => "unknown")
              ((prods.filter (fun p =>
                !hash_in_store store (sha256_hex p.2.2))).enum.map
                  (mk_staged_chunk title cat did st)) embs)
            (sha256_hex p.2.2) = true := by
          intro p hpmem
          rw [hash_in_store_iff, List.map_append, attach_embeddings_hash_map,
            staged_hash_map]
          by_cases hcs : hash_in_store store (sha256_hex p.2.2)
          · exact List.mem_append_left _ ((hash_in_store_iff _ _).mp hcs)
          · refine List.mem_append_right _ ?_
            have hpk : p ∈ prods.filter (fun p =>
                !hash_in_store store (sha256_hex p.2.2)) :=
              List.mem_filter.2 ⟨hpmem, by simp [hcs]⟩
            exact List.mem_map_of_mem _ hpk
        have hs2 : stage_chunks c
            (store ++ attach_embeddings
              (match get_active_config cfgs with
               | some cfg => cfg.model_id
               | none => "unknown")
              ((prods.filter (fun p =>
                !hash_in_store store (sha256_hex p.2.2))).enum.map
                  (mk_staged_chunk title cat did st)) embs)
            (extract content) title cat did st = some [] := by
          simp only [stage_chunks, hp, Option.map_some']
          have hnil : prods.filter (fun p =>
              !hash_in_store
                (store ++ attach_embeddings
                  (match get_active_config cfgs with
                   | some cfg => cfg.model_id
                   | none => "unknown")
                  ((prods.filter (fun q =>
                    !hash_in_store store (sha256_hex q.2.2))).enum.map
                      (mk_staged_chunk title cat did st)) embs)
                (sha256_hex p.2.2)) = [] := by
            apply List.filter_eq_nil_iff.2
            intro p hpm
            simp [hcover p hpm]
          rw [hnil]; rfl
        simp only [vectorize_markdown_document, hs2, if_true]

/-- Witness for C8: ingest the document `"x"` into an empty store with a
working embedding endpoint, then ingest it again; the second call reports
all zeros and the store is unchanged. -/
theorem idempotent_ingestion_witness :
    vectorize_markdown_document {} (fun s => [("General", s)])
      [{ id := 1, is_active := true, is_default := true }]
      (fun ts => .ok (ts.map (fun _ => ([1] : List ℚ))))
      [{ id := 0, source_type := "disease_guideline", disease_id := none
         disease_category := "respiratory", document_title := "T"
         section_title := "General", chunk_index := 0, chunk_text := "x"
         chunk_text_hash := "x", embedding := [1], embedding_model_id := ""
         retrieval_count := 0, is_active := true }]
      "x" "T" "respiratory" none "disease_guideline"
      = (.ok { total_chunks := 0, new_chunks := 0, duplicates := 0, chunk_ids := [] },
         [{ id := 0, source_type := "disease_guideline", disease_id := none
            disease_category := "respiratory", document_title := "T"
            section_title := "General", chunk_index := 0, chunk_text := "x"
            chunk_text_hash := "x", embedding := [1], embedding_model_id := ""
            retrieval_count := 0, is_active := true }]) := by
  exact idempotent_ingestion {} (fun s => [("General", s)])
    [{ id := 1, is_active := true, is_default := true }]
    (fun ts => .ok (ts.map (fun _ => ([1] : List ℚ)))) [] "x" "T" "respiratory"
    none "disease_guideline"
    { total_chunks := 1, new_chunks := 1, duplicates := 0, chunk_ids := [0] }
    [{ id := 0, source_type := "disease_guideline", disease_id := none
       disease_category := "respiratory", document_title := "T"
       section_title := "General", chunk_index := 0, chunk_text := "x"
       chunk_text_hash := "x", embedding := [1], embedding_model_id := ""
       retrieval_count := 0, is_active := true }]
    rfl

/-- Squared magnitudes are nonnegative. -/
theorem magSq_nonneg (v : List ℚ) : 0 ≤ magSq v := by
  induction v with
  | nil => simp [magSq, dotQ]
  | cons a t ih =>
    have he : magSq (a :: t) = a * a + magSq t := rfl
    rw [he]
    exact add_nonneg (mul_self_nonneg a) ih

/-- Cauchy–Schwarz for the truncating dot product. -/
theorem dotQ_sq_le (u v : List ℚ) : (dotQ u v) ^ 2 ≤ magSq u * magSq v := by
  induction u generalizing v with
  | nil =>
    have h0 : dotQ ([] : List ℚ) v = 0 := rfl
    have h1 : magSq ([] : List ℚ) = 0 := rfl
    rw [h0, h1]
    simp
  | cons a t ih =>
    cases v with
    | nil =>
      have h0 : dotQ (a :: t) ([] : List ℚ) = 0 := rfl
      rw [h0]
      have := mul_nonneg (magSq_nonneg (a :: t)) (magSq_nonneg ([] : List ℚ))
      simpa using this
    | cons b s =>
      have h1 : dotQ (a :: t) (b :: s) = a * b + dotQ t s := rfl
      have h2 : magSq (a :: t) = a * a + magSq t := rfl
      have h3 : magSq (b :: s) = b * b + magSq s := rfl
      have ih' := ih s
      have hmu := magSq_nonneg t
      have hmv := magSq_nonneg s
      rw [h1, h2, h3]
      rcases eq_or_lt_of_le hmv with hmv0 | hmvpos
      · have hd : dotQ t s = 0 := by
          have hle : dotQ t s ^ 2 ≤ 0 := by nlinarith [ih']
          have := sq_nonneg (dotQ t s)
          have h0 : dotQ t s ^ 2 = 0 := le_antisymm hle this
          exact pow_eq_zero_iff (n := 2) (by norm_num) |>.mp h0
        rw [hd, ← hmv0]
        nlinarith [mul_nonneg hmu (mul_self_nonneg b)]
      · nlinarith [sq_nonneg (a * magSq s - b * dotQ t s),
          mul_nonneg (add_nonneg (sq_nonneg b) hmv) (sub_nonneg.2 ih'),
          hmvpos, hmu, ih']

/-- A vector with a nonzero coordinate has positive squared magnitude. -/
theorem magSq_pos (v : List ℚ) (h : ∃ x ∈ v, x ≠ 0) : 0 < magSq v := by
  induction v with
  | nil => simp at h
  | cons a t ih =>
    have he : magSq (a :: t) = a * a + magSq t := rfl
    rw [he]
    rcases h with ⟨x, hx, hxne⟩
    rcases List.mem_cons.mp hx with h1 | h2
    · subst h1
      have := magSq_nonneg t
      nlinarith [mul_self_pos.2 hxne]
    · have := ih ⟨x, h2, hxne⟩
      nlinarith [mul_self_nonneg a]

/-- The cosine similarity of any two vectors lies in `[-1, 1]`. -/
theorem cosine_bounds_all (u v : List ℚ) :
    -1 ≤ cosine_similarity u v ∧ cosine_similarity u v ≤ 1 := by
  unfold cosine_similarity
  split
  · norm_num
  · split
    · norm_num
    · rename_i hdeg hmag
      push_neg at hmag
      have hu0 : (0 : ℝ) < Real.sqrt ((magSq u : ℚ) : ℝ) :=
        lt_of_le_of_ne (Real.sqrt_nonneg _) (Ne.symm hmag.1)
      have hv0 : (0 : ℝ) < Real.sqrt ((magSq v : ℚ) : ℝ) :=
        lt_of_le_of_ne (Real.sqrt_nonneg _) (Ne.symm hmag.2)
      have hpos : (0 : ℝ) < Real.sqrt ((magSq u : ℚ) : ℝ) * Real.sqrt ((magSq v : ℚ) : ℝ) :=
        mul_pos hu0 hv0
      have hcs : ((dotQ u v : ℚ) : ℝ) ^ 2
          ≤ ((magSq u : ℚ) : ℝ) * ((magSq v : ℚ) : ℝ) := by
        have := dotQ_sq_le u v
        have hcast : (((dotQ u v) ^ 2 : ℚ) : ℝ) ≤ ((magSq u * magSq v : ℚ) : ℝ) := by
          exact_mod_cast this
        push_cast at hcast
        exact hcast
      have habs : |((dotQ u v : ℚ) : ℝ)|
          ≤ Real.sqrt ((magSq u : ℚ) : ℝ) * Real.sqrt ((magSq v : ℚ) : ℝ) := by
        rw [← Real.sqrt_mul (by exact_mod_cast magSq_nonneg u)]
        rw [← Real.sqrt_sq_eq_abs]
        exact Real.sqrt_le_sqrt hcs
      have hdiv : |((dotQ u v : ℚ) : ℝ) /
          (Real.sqrt ((magSq u : ℚ) : ℝ) * Real.sqrt ((magSq v : ℚ) : ℝ))| ≤ 1 := by
        rw [abs_div, abs_of_pos hpos]
        exact (div_le_one hpos).2 habs
      exact abs_le.mp hdiv

/-- The cosine similarity of a vector with itself is `1` when some
coordinate is nonzero. -/
theorem cosine_self_eq_one (v : List ℚ) (h : ∃ x ∈ v, x ≠ 0) :
    cosine_similarity v v = 1 := by
  have hvne : v ≠ [] := by
    rcases h with ⟨x, hx, _⟩
    exact List.ne_nil_of_mem hx
  have hm := magSq_pos v h
  have hmR : (0 : ℝ) < ((magSq v : ℚ) : ℝ) := by exact_mod_cast hm
  have hs : (0 : ℝ) < Real.sqrt ((magSq v : ℚ) : ℝ) := Real.sqrt_pos.2 hmR
  unfold cosine_similarity
  rw [if_neg (by simp [hvne])]
  rw [if_neg (by push_neg; exact ⟨ne_of_gt hs, ne_of_gt hs⟩)]
  have hdot : dotQ v v = magSq v := rfl
  rw [hdot, Real.mul_self_sqrt (le_of_lt hmR)]
  exact div_self (ne_of_gt hmR)

/-- The cosine similarity is `0` whenever either vector has zero (squared)
magnitude. -/
theorem cosine_zero_of_magSq (u v : List ℚ) (h : magSq u = 0 ∨ magSq v = 0) :
    cosine_similarity u v = 0 := by
  unfold cosine_similarity
  split
  · rfl
  · rw [if_pos]
    rcases h with h | h
    · exact Or.inl (by rw [h]; simp)
    · exact Or.inr (by rw [h]; simp)

/-- The cosine similarity is `0` (totally, with no error) whenever the
vectors' lengths differ or either vector is empty. -/
theorem cosine_zero_of_mismatch (u v : List ℚ)
    (h : u.length ≠ v.length ∨ u = [] ∨ v = []) :
    cosine_similarity u v = 0 := by
  unfold cosine_similarity
  rw [if_pos]
  tauto

/-- Claim C7: cosine bounds, over exact rational vector arithmetic.  For all
equal-length pairs the similarity lies in `[-1, 1]`; `similarity(v, v) = 1`
for every vector with a nonzero coordinate; and the similarity is `0`
whenever either vector has zero magnitude. -/
theorem cosine_similarity_claims :
    (∀ u v : List ℚ, u.length = v.length →
      -1 ≤ cosine_similarity u v ∧ cosine_similarity u v ≤ 1) ∧
    (∀ v : List ℚ, (∃ x ∈ v, x ≠ 0) → cosine_similarity v v = 1) ∧
    (∀ u v : List ℚ, magSq u = 0 ∨ magSq v = 0 → cosine_similarity u v = 0) :=
  ⟨fun u v _ => cosine_bounds_all u v, cosine_self_eq_one, cosine_zero_of_magSq⟩

/-- Witness for C7 at concrete vectors: `[1, 2]` against `[3, 4]` is within
bounds, `[3, 4]` against itself scores exactly `1`, and the zero vector
scores `0` against `[1, 1]`. -/
theorem cosine_similarity_claims_witness :
    (-1 ≤ cosine_similarity [1, 2] [3, 4] ∧ cosine_similarity [1, 2] [3, 4] ≤ 1) ∧
    cosine_similarity [3, 4] [3, 4] = 1 ∧
    cosine_similarity [0, 0] [1, 1] = 0 :=
  ⟨cosine_similarity_claims.1 [1, 2] [3, 4] rfl,
   cosine_similarity_claims.2.1 [3, 4] ⟨3, by simp, by norm_num⟩,
   cosine_similarity_claims.2.2 [0, 0] [1, 1] (Or.inl (by norm_num [magSq, dotQ]))⟩

/-- Claim C10: dimension-mismatch behavior.  `_cosine_similarity` totally
returns `0` when the lengths differ or either vector is empty; consequently,
whenever `min_similarity > 0`, every chunk appearing in
`search_similar_chunks` results has an embedding of exactly the query
embedding's dimension. -/
theorem dimension_mismatch_safety :
    (∀ u v : List ℚ, u.length ≠ v.length ∨ u = [] ∨ v = [] →
      cosine_similarity u v = 0) ∧
    (∀ (store : List KnowledgeBaseChunk) (q : List ℚ) (dc : Option String)
      (k : Nat) (minSim : ℝ), 0 < minSim →
      ∀ r ∈ (search_core store q dc k minSim).1,
        ∃ ch ∈ store, ch.id = r.id ∧ ch.embedding.length = q.length) := by
  refine ⟨cosine_zero_of_mismatch, ?_⟩
  intro store q dc k minSim hpos r hr
  simp only [search_core] at hr
  rcases List.mem_map.mp hr with ⟨cs, hcs_top, hfmt⟩
  have hcs_sorted : cs ∈ (scored_chunks store q dc minSim).mergeSort
      (fun a b => decide (b.2 ≤ a.2)) := List.mem_of_mem_take hcs_top
  have hcs_scored : cs ∈ scored_chunks store q dc minSim :=
    (List.mergeSort_perm _ _).mem_iff.mp hcs_sorted
  simp only [scored_chunks] at hcs_scored
  rcases List.mem_filterMap.mp hcs_scored with ⟨ch, hch, hf⟩
  split_ifs at hf with hemb hsim
  · cases hf
    refine ⟨ch, List.mem_of_mem_filter hch, ?_, ?_⟩
    · rw [← hfmt]; rfl
    · by_contra hlen
      have hzero : cosine_similarity q ch.embedding = 0 :=
        cosine_zero_of_mismatch q ch.embedding (Or.inl (fun hq => hlen hq.symm))
      rw [hzero] at hsim
      linarith

/-- Fixture: a stored chunk carrying a two-dimensional embedding. -/
def mismatchChunk : KnowledgeBaseChunk :=
  { id := 3, source_type := "disease_guideline", disease_category := "c"
    document_title := "T", section_title := "G", chunk_index := 0
    chunk_text := "t", chunk_text_hash := "t", embedding := [1, 0]
    is_active := true }

/-- Witness for C10: a one-dimensional query against a store holding only a
two-dimensional embedding, with `min_similarity = 1/2 > 0`; the mismatch
conjunct is applied at `[1]` versus `[1, 0]`. -/
theorem dimension_mismatch_safety_witness :
    cosine_similarity [1] [1, 0] = 0 ∧
    (∀ r ∈ (search_core [mismatchChunk] [1] none 5 ((1 : ℝ) / 2)).1,
      ∃ ch ∈ [mismatchChunk],
        ch.id = r.id ∧ ch.embedding.length = ([1] : List ℚ).length) :=
  ⟨dimension_mismatch_safety.1 [1] [1, 0] (Or.inl (by norm_num)),
   dimension_mismatch_safety.2 _ [1] none 5 ((1 : ℝ) / 2) (by norm_num)⟩

/-- `mergeSort` on a two-element list. -/
theorem mergeSort_pair {α : Type} (le : α → α → Bool) (a b : α) :
    [a, b].mergeSort le = if le a b then [a, b] else [b, a] := by
  simp [List.mergeSort, List.splitInTwo, List.splitAt, List.splitAt.go, List.merge]

/-- `mergeSort` on a one-element list. -/
theorem mergeSort_single {α : Type} (le : α → α → Bool) (a : α) :
    [a].mergeSort le = [a] := by
  simp [List.mergeSort]

/-- Modelled from the words of claim C4, for the refinement comparison: the
claimed comparison sorts descending by similarity, breaking ties by higher
`retrieval_count` and then by ascending `chunk_index`. -/
noncomputable def claimLE (a b : KnowledgeBaseChunk × ℝ) : Bool :=
  open Classical in
  decide (b.2 < a.2 ∨ (a.2 = b.2 ∧ (b.1.retrieval_count < a.1.retrieval_count ∨
    (a.1.retrieval_count = b.1.retrieval_count ∧ a.1.chunk_index ≤ b.1.chunk_index))))

/-- Modelled from the words of claim C4, for the refinement comparison: the
qualifying chunks sorted by the claimed three-level comparison, truncated to
`top_k`, formatted as the search results. -/
noncomputable def spec_search_results (store : List KnowledgeBaseChunk)
    (query_embedding : List ℚ) (dc : Option String) (top_k : Nat)
    (min_similarity : ℝ) : List SearchResult :=
  (((scored_chunks store query_embedding dc min_similarity).mergeSort claimLE).take
    top_k).map format_result

/-- Claim C4 amended: the returned list is the qualifying chunks sorted
descending by similarity **only** — CPython's stable sort, so ties stay in
store-scan order, with no `retrieval_count` or `chunk_index` tie-break —
truncated to the first `top_k`: the results are the image of a prefix of a
similarity-sorted permutation of the qualifying scored chunks. -/
theorem search_ordering_amended (store : List KnowledgeBaseChunk) (q : List ℚ)
    (dc : Option String) (k : Nat) (minSim : ℝ) :
    ∃ l, (scored_chunks store q dc minSim).Perm l ∧
      l.Pairwise (fun a b => b.2 ≤ a.2) ∧
      (search_core store q dc k minSim).1 = (l.take k).map format_result := by
  refine ⟨(scored_chunks store q dc minSim).mergeSort simGE,
    (List.mergeSort_perm _ _).symm, ?_, rfl⟩
  have htrans : ∀ (a b c : KnowledgeBaseChunk × ℝ),
      simGE a b → simGE b c → simGE a c := by
    intro a b c hab hbc
    simp only [simGE, decide_eq_true_eq] at *
    exact le_trans hbc hab
  have htotal : ∀ (a b : KnowledgeBaseChunk × ℝ), simGE a b || simGE b a := by
    intro a b
    simp only [simGE, Bool.or_eq_true, decide_eq_true_eq]
    exact le_total b.2 a.2
  have hs := List.sorted_mergeSort htrans htotal (scored_chunks store q dc minSim)
  exact hs.imp (fun h => by simpa [simGE] using h)

/-- Fixture: first-scanned chunk with a tying similarity and the *lower*
`retrieval_count`. -/
def tieChunkA : KnowledgeBaseChunk :=
  { id := 1, source_type := "disease_guideline", disease_category := "c"
    document_title := "T", section_title := "G", chunk_index := 0
    chunk_text := "a", chunk_text_hash := "a", embedding := [1, 0]
    retrieval_count := 0, is_active := true }

/-- Fixture: second-scanned chunk with a tying similarity and the *higher*
`retrieval_count`. -/
def tieChunkB : KnowledgeBaseChunk :=
  { id := 2, source_type := "disease_guideline", disease_category := "c"
    document_title := "T", section_title := "G", chunk_index := 0
    chunk_text := "b", chunk_text_hash := "b", embedding := [1, 0]
    retrieval_count := 5, is_active := true }

/-- Claim C4 counterexample: two chunks tying at similarity `1` for the
query `[1, 0]`, the second carrying the higher `retrieval_count`.  The code
returns them in store order (ids `[1, 2]`), whereas the claimed
`retrieval_count` tie-break demands ids `[2, 1]` — the returned list differs
from the claim's ordering. -/
theorem search_tiebreak_counterexample :
    (search_core [tieChunkA, tieChunkB] [1, 0] none 5 ((3 : ℝ) / 5)).1
      ≠ spec_search_results [tieChunkA, tieChunkB] [1, 0] none 5 ((3 : ℝ) / 5) := by
  have hsim : cosine_similarity [1, 0] [1, 0] = 1 :=
    cosine_self_eq_one [1, 0] ⟨1, by simp, by norm_num⟩
  have hc : ((3 : ℝ) / 5 ≤ 1) := by norm_num
  have hscored : scored_chunks [tieChunkA, tieChunkB] [1, 0] none ((3 : ℝ) / 5)
      = [(tieChunkA, 1), (tieChunkB, 1)] := by
    simp [scored_chunks, chunkMatchesFilter, tieChunkA, tieChunkB, hsim, hc]
  have hcode : (search_core [tieChunkA, tieChunkB] [1, 0] none 5 ((3 : ℝ) / 5)).1
      = [format_result (tieChunkA, 1), format_result (tieChunkB, 1)] := by
    simp only [search_core, hscored]
    rw [mergeSort_pair]
    have h1 : simGE (tieChunkA, 1) (tieChunkB, 1) = true := by simp [simGE]
    rw [h1]
    rfl
  have hspec : spec_search_results [tieChunkA, tieChunkB] [1, 0] none 5 ((3 : ℝ) / 5)
      = [format_result (tieChunkB, 1), format_result (tieChunkA, 1)] := by
    simp only [spec_search_results, hscored]
    rw [mergeSort_pair]
    have h1 : claimLE (tieChunkA, 1) (tieChunkB, 1) = false := by
      simp [claimLE, tieChunkA, tieChunkB]
    rw [h1]
    rfl
  rw [hcode, hspec]
  intro h
  have hids := congrArg (fun l => l.map (fun r => r.id)) h
  simp [format_result, tieChunkA, tieChunkB] at hids

/-- `find?` by key commutes with mapping a key-preserving function. -/
theorem find?_map_key {α : Type} (f : α → String × FuseEntry) (keyOf : α → String)
    (hf : ∀ a, (f a).1 = keyOf a) (l : List α) (cat : String) :
    (l.map f).find? (fun ce => ce.1 == cat)
      = (l.find? (fun a => keyOf a == cat)).map f := by
  induction l with
  | nil => rfl
  | cons a t ih =>
    rw [List.map_cons]
    simp only [List.find?_cons, hf a]
    cases h : (keyOf a == cat) with
    | true => simp
    | false => simpa using ih

/-- `fuseVectorStep` leaves the entries of every other category's key
untouched as seen through `find?`. -/
theorem fuseVectorStep_find_other (s : List (String × FuseEntry))
    (hit : SearchResult × String) (cat : String)
    (hne : cat ≠ hit.1.disease_category) :
    (fuseVectorStep s hit).find? (fun ce => ce.1 == cat)
      = s.find? (fun ce => ce.1 == cat) := by
  simp only [fuseVectorStep]
  have hmap : ∀ (l : List (String × FuseEntry)) (cat' : String),
      (l.map (fun ce =>
        if ce.1 == hit.1.disease_category then (ce.1, updEntry hit ce.2) else ce)).find?
          (fun ce => ce.1 == cat')
        = (l.find? (fun ce => ce.1 == cat')).map (fun ce =>
            if ce.1 == hit.1.disease_category then (ce.1, updEntry hit ce.2) else ce) :=
    fun l cat' => find?_map_key _ (fun ce => ce.1)
      (fun ce => by by_cases h : ce.1 == hit.1.disease_category <;> simp [h]) l cat'
  by_cases hany : s.any (fun ce => ce.1 == hit.1.disease_category)
  · rw [if_pos hany, hmap]
    cases hfind : s.find? (fun ce => ce.1 == cat) with
    | none => rfl
    | some e =>
      have hkey := List.find?_some hfind
      have hkey' : e.1 = cat := by simpa using hkey
      have hff : (e.1 == hit.1.disease_category) = false := by
        rw [hkey']
        exact beq_eq_false_iff_ne.mpr hne
      rw [Option.map_some']
      rw [if_neg (by simp [hff])]
  · rw [if_neg hany, hmap, List.find?_append]
    have h2 : ([(hit.1.disease_category, freshEntry)].find?
        (fun ce => ce.1 == cat)) = none := by
      apply List.find?_eq_none.2
      intro x hx
      simp only [List.mem_singleton] at hx
      subst hx
      simp [Ne.symm hne]
    rw [h2]
    cases hfind : s.find? (fun ce => ce.1 == cat) with
    | none => rfl
    | some e =>
      have hkey0 := List.find?_some hfind
      have hkey' : e.1 = cat := by simpa using hkey0
      have hff : (e.1 == hit.1.disease_category) = false := by
        rw [hkey']
        exact beq_eq_false_iff_ne.mpr hne
      simp only [Option.or_some, Option.map_some']
      rw [if_neg (by simp [hff])]

/-- `fuseVectorStep` updates exactly the hit category's entry: the previous
entry — or a fresh one — pushed through `updEntry`. -/
theorem fuseVectorStep_find_self (s : List (String × FuseEntry))
    (hit : SearchResult × String) :
    (fuseVectorStep s hit).find? (fun ce => ce.1 == hit.1.disease_category)
      = some (hit.1.disease_category,
          updEntry hit
            (((s.find? (fun ce => ce.1 == hit.1.disease_category)).map
              (fun ce => ce.2)).getD freshEntry)) := by
  simp only [fuseVectorStep]
  have hmap : ∀ (l : List (String × FuseEntry)) (cat' : String),
      (l.map (fun ce =>
        if ce.1 == hit.1.disease_category then (ce.1, updEntry hit ce.2) else ce)).find?
          (fun ce => ce.1 == cat')
        = (l.find? (fun ce => ce.1 == cat')).map (fun ce =>
            if ce.1 == hit.1.disease_category then (ce.1, updEntry hit ce.2) else ce) :=
    fun l cat' => find?_map_key _ (fun ce => ce.1)
      (fun ce => by by_cases h : ce.1 == hit.1.disease_category <;> simp [h]) l cat'
  by_cases hany : s.any (fun ce => ce.1 == hit.1.disease_category)
  · rw [if_pos hany, hmap]
    rcases List.any_eq_true.mp hany with ⟨x, hx, hpx⟩
    cases hfind : s.find? (fun ce => ce.1 == hit.1.disease_category) with
    | none => exact absurd (List.find?_eq_none.mp hfind x hx) (by simp_all)
    | some e =>
      have hkey0 := List.find?_some hfind
      have hkey' : e.1 = hit.1.disease_category := by simpa using hkey0
      rw [Option.map_some']
      rw [if_pos (by simp [hkey'])]
      rw [hkey']
      rfl
  · rw [if_neg hany, hmap, List.find?_append]
    have hnone : s.find? (fun ce => ce.1 == hit.1.disease_category) = none := by
      apply List.find?_eq_none.2
      intro x hx
      have hany' : s.any (fun ce => ce.1 == hit.1.disease_category) = false :=
        Bool.eq_false_iff.mpr hany
      have := List.any_eq_false.mp hany' x hx
      simpa using this
    rw [hnone]
    simp

/-- The similarity scores observed for one category, in arrival order. -/
def catSims (cat : String) (vm : List (SearchResult × String)) : List ℝ :=
  (vm.filter (fun h => h.1.disease_category == cat)).map
    (fun h => h.1.similarity_score)

/-- Folding the vector hits through the dict leaves, per category key, the
seeded keyword score untouched and accumulates exactly the running maximum
of that category's similarities (seeded with the entry's initial vector
score, `0` for categories first seen through a hit). -/
theorem fold_find_proj (vm : List (SearchResult × String)) :
    ∀ (s : List (String × FuseEntry)) (cat : String),
    ((vm.foldl fuseVectorStep s).find? (fun ce => ce.1 == cat)).map
        (fun ce => (ce.2.keyword_score, ce.2.vector_score))
      = match s.find? (fun ce => ce.1 == cat) with
        | some e => some (e.2.keyword_score, (catSims cat vm).foldl max e.2.vector_score)
        | none =>
          if catSims cat vm = [] then none
          else some (0, (catSims cat vm).foldl max 0) := by
  induction vm with
  | nil =>
    intro s cat
    cases hf : s.find? (fun ce => ce.1 == cat) with
    | none => simp [catSims, hf]
    | some e => simp [catSims, hf]
  | cons hit rest ih =>
    intro s cat
    rw [List.foldl_cons, ih (fuseVectorStep s hit) cat]
    by_cases hcat : cat = hit.1.disease_category
    · have hself := fuseVectorStep_find_self s hit
      rw [← hcat] at hself
      rw [hself]
      have hsims : catSims cat (hit :: rest)
          = hit.1.similarity_score :: catSims cat rest := by
        simp [catSims, hcat]
      cases hsf : s.find? (fun ce => ce.1 == cat) with
      | some e =>
        show some ((updEntry hit e.2).keyword_score,
            (catSims cat rest).foldl max (updEntry hit e.2).vector_score)
          = some (e.2.keyword_score,
              (catSims cat (hit :: rest)).foldl max e.2.vector_score)
        rw [hsims, List.foldl_cons]
        rfl
      | none =>
        show some ((updEntry hit freshEntry).keyword_score,
            (catSims cat rest).foldl max (updEntry hit freshEntry).vector_score)
          = if catSims cat (hit :: rest) = [] then none
            else some (0, (catSims cat (hit :: rest)).foldl max 0)
        rw [hsims, List.foldl_cons]
        rw [if_neg (by simp)]
        rfl
    · rw [fuseVectorStep_find_other s hit cat hcat]
      have hsims : catSims cat (hit :: rest) = catSims cat rest := by
        simp only [catSims, List.filter_cons]
        rw [if_neg (by simp; exact fun h => hcat h.symm)]
      rw [hsims]

/-- The key-update map of `fuseVectorStep` preserves the key column. -/
theorem fuseVectorStep_keys_nodup (s : List (String × FuseEntry))
    (hit : SearchResult × String)
    (hnd : (s.map (fun ce => ce.1)).Nodup) :
    ((fuseVectorStep s hit).map (fun ce => ce.1)).Nodup := by
  simp only [fuseVectorStep]
  have hkeys : ∀ (l : List (String × FuseEntry)),
      ((l.map (fun ce =>
        if ce.1 == hit.1.disease_category then (ce.1, updEntry hit ce.2) else ce)).map
          (fun ce => ce.1)) = l.map (fun ce => ce.1) := by
    intro l
    rw [List.map_map]
    apply List.map_congr_left
    intro a _
    show (if a.1 == hit.1.disease_category then (a.1, updEntry hit a.2) else a).1 = a.1
    split <;> rfl
  by_cases hany : s.any (fun ce => ce.1 == hit.1.disease_category)
  · rw [if_pos hany, hkeys]
    exact hnd
  · rw [if_neg hany, hkeys, List.map_append]
    refine List.Nodup.append hnd (List.nodup_singleton _) ?_
    intro a ha hb
    simp only [List.map_cons, List.map_nil, List.mem_singleton] at hb
    subst hb
    rcases List.mem_map.mp ha with ⟨ce, hce, hkey⟩
    have := List.any_eq_false.mp (Bool.eq_false_iff.mpr hany) ce hce
    simp [hkey] at this

/-- The fused dict keeps its keys unique through the whole fold. -/
theorem fold_keys_nodup (vm : List (SearchResult × String)) :
    ∀ s : List (String × FuseEntry), (s.map (fun ce => ce.1)).Nodup →
      ((vm.foldl fuseVectorStep s).map (fun ce => ce.1)).Nodup := by
  induction vm with
  | nil => exact fun s h => h
  | cons hit rest ih =>
    intro s h
    rw [List.foldl_cons]
    exact ih _ (fuseVectorStep_keys_nodup s hit h)

/-- In a key-unique association list, membership determines `find?`. -/
theorem assoc_find_of_mem_nodup (l : List (String × FuseEntry)) (cat : String)
    (e : FuseEntry) (hmem : (cat, e) ∈ l)
    (hnd : (l.map (fun ce => ce.1)).Nodup) :
    l.find? (fun ce => ce.1 == cat) = some (cat, e) := by
  induction l with
  | nil => cases hmem
  | cons a t ih =>
    rcases List.mem_cons.mp hmem with heq | hmem'
    · rw [← heq]
      simp [List.find?_cons]
    · have hcat_in : cat ∈ t.map (fun ce => ce.1) :=
        List.mem_map.mpr ⟨(cat, e), hmem', rfl⟩
      rw [List.map_cons] at hnd
      rcases List.nodup_cons.mp hnd with ⟨hnotin, hndt⟩
      have hkey : (a.1 == cat) = false :=
        beq_eq_false_iff_ne.mpr (fun h => hnotin (h ▸ hcat_in))
      simp only [List.find?_cons, hkey]
      exact ih hmem' hndt

/-- The keyword score the claim attributes to a category: the priority-
weighted `final_score` of its keyword match, `0` when the category was not
keyword-matched. -/
def kw_final_score (km : List (String × KeywordMatch)) (cat : String) : Nat :=
  match km.find? (fun cm => cm.1 == cat) with
  | some cm => cm.2.final_score
  | none => 0

/-- The vector score the claim attributes to a category: the running maximum
of the observed similarities, seeded with `0` exactly as the source's
`max(vector_score, similarity)` fold; it equals the true maximum whenever
the observed similarities are nonnegative (in every `select` call they are
`≥ 0.6`). -/
noncomputable def max_vec_sim (vm : List (SearchResult × String)) (cat : String) : ℝ :=
  (catSims cat vm).foldl max 0

/-- A `max`-fold is at least its seed. -/
theorem le_foldl_max (l : List ℝ) : ∀ i : ℝ, i ≤ l.foldl max i := by
  induction l with
  | nil => intro i; simp
  | cons x t ih =>
    intro i
    rw [List.foldl_cons]
    exact le_trans (le_max_left i x) (ih (max i x))

/-- A `max`-fold bounds every list element. -/
theorem mem_le_foldl_max (l : List ℝ) : ∀ (i : ℝ), ∀ x ∈ l, x ≤ l.foldl max i := by
  induction l with
  | nil => intro i x hx; cases hx
  | cons a t ih =>
    intro i x hx
    rw [List.foldl_cons]
    rcases List.mem_cons.mp hx with h | h
    · subst h
      exact le_trans (le_max_right i x) (le_foldl_max t (max i x))
    · exact ih (max i a) x h

/-- A `max`-fold is its seed or one of the list's elements. -/
theorem foldl_max_mem (l : List ℝ) : ∀ i : ℝ, l.foldl max i = i ∨ l.foldl max i ∈ l := by
  induction l with
  | nil => intro i; exact Or.inl rfl
  | cons a t ih =>
    intro i
    rw [List.foldl_cons]
    rcases ih (max i a) with h | h
    · rcases max_choice i a with hm | hm
      · exact Or.inl (by rw [h, hm])
      · exact Or.inr (by rw [h, hm]; exact List.mem_cons_self a t)
    · exact Or.inr (List.mem_cons_of_mem a h)

/-- Claim C5: fusion formula.  Every source produced by `_fuse_and_rank`
(one per category seen in the keyword or the vector signal) carries
`relevance_score = keyword_final_score × 0.6 + max_vector_similarity × 0.4`,
multiplied by `1.2` exactly when the category has both a nonzero keyword
score and a nonzero vector score; and — under the nonnegative similarities
of every `select` call — `max_vec_sim` is a true maximum: an upper bound of
the category's observed similarities and, when any were observed, one of
them. -/
theorem fusion_formula (km : List (String × KeywordMatch))
    (vm : List (SearchResult × String))
    (hkm : (km.map (fun cm => cm.1)).Nodup)
    (hvm : ∀ hit ∈ vm, 0 ≤ hit.1.similarity_score)
    (src : KnowledgeSource) (hsrc : src ∈ fuse_and_rank km vm) :
    (src.relevance_score =
      if kw_final_score km src.category ≠ 0 ∧ max_vec_sim vm src.category ≠ 0
      then ((kw_final_score km src.category : ℝ) * 0.6
            + max_vec_sim vm src.category * 0.4) * 1.2
      else (kw_final_score km src.category : ℝ) * 0.6
            + max_vec_sim vm src.category * 0.4) ∧
    (∀ x ∈ catSims src.category vm, x ≤ max_vec_sim vm src.category) ∧
    (catSims src.category vm ≠ [] →
      max_vec_sim vm src.category ∈ catSims src.category vm) := by
  have hsims_nonneg : ∀ x ∈ catSims src.category vm, (0 : ℝ) ≤ x := by
    intro x hx
    rcases List.mem_map.mp hx with ⟨hit, hhit, hsim⟩
    exact hsim ▸ hvm hit (List.mem_of_mem_filter hhit)
  refine ⟨?_, fun x hx => mem_le_foldl_max _ 0 x hx, ?_⟩
  · -- the formula
    have hsrc' : src ∈ (vm.foldl fuseVectorStep
        (km.map (fun cm => (cm.1, seedEntry cm)))).map mkKnowledgeSource :=
      (List.mergeSort_perm _ _).mem_iff.mp hsrc
    rcases List.mem_map.mp hsrc' with ⟨ce, hce, hmk⟩
    obtain ⟨c, e⟩ := ce
    have hcat : src.category = c := by rw [← hmk]; rfl
    have hnd : ((vm.foldl fuseVectorStep
        (km.map (fun cm => (cm.1, seedEntry cm)))).map (fun ce => ce.1)).Nodup := by
      apply fold_keys_nodup
      rw [List.map_map]
      exact hkm
    have hfind := assoc_find_of_mem_nodup _ c e hce hnd
    have hproj := fold_find_proj vm (km.map (fun cm => (cm.1, seedEntry cm))) c
    rw [hfind] at hproj
    have hseedfind : (km.map (fun cm => (cm.1, seedEntry cm))).find?
        (fun ce => ce.1 == c)
        = (km.find? (fun cm => cm.1 == c)).map (fun cm => (cm.1, seedEntry cm)) :=
      find?_map_key _ (fun cm => cm.1) (fun cm => rfl) km c
    rw [hseedfind] at hproj
    have hkwvs : e.keyword_score = kw_final_score km c
        ∧ e.vector_score = max_vec_sim vm c := by
      cases hkf : km.find? (fun cm => cm.1 == c) with
      | some cm =>
        rw [hkf, Option.map_some'] at hproj
        have hpair := Option.some.inj hproj
        refine ⟨?_, ?_⟩
        · rw [kw_final_score, hkf]
          exact congrArg Prod.fst hpair
        · rw [max_vec_sim]
          exact congrArg Prod.snd hpair
      | none =>
        rw [hkf, Option.map_none'] at hproj
        by_cases hnil : catSims c vm = []
        · rw [if_pos hnil] at hproj
          exact absurd hproj (by simp)
        · rw [if_neg hnil] at hproj
          have hpair := Option.some.inj hproj
          refine ⟨?_, ?_⟩
          · rw [kw_final_score, hkf]
            exact congrArg Prod.fst hpair
          · rw [max_vec_sim]
            exact congrArg Prod.snd hpair
    rw [hcat, ← hmk]
    show (if 0 < (e.keyword_score : ℝ) ∧ 0 < e.vector_score
        then ((e.keyword_score : ℝ) * 0.6 + e.vector_score * 0.4) * 1.2
        else (e.keyword_score : ℝ) * 0.6 + e.vector_score * 0.4) = _
    rw [hkwvs.1, hkwvs.2]
    have hv0 : (0 : ℝ) ≤ max_vec_sim vm c := le_foldl_max _ 0
    apply if_congr ?_ rfl rfl
    constructor
    · rintro ⟨h1, h2⟩
      exact ⟨by exact_mod_cast Nat.pos_iff_ne_zero.mp (by exact_mod_cast h1),
        ne_of_gt h2⟩
    · rintro ⟨h1, h2⟩
      refine ⟨by exact_mod_cast Nat.pos_of_ne_zero h1, ?_⟩
      exact lt_of_le_of_ne hv0 (Ne.symm h2)
  · -- a genuine maximum when similarities were observed
    intro hne
    rcases foldl_max_mem (catSims src.category vm) 0 with h0 | hmem
    · rcases List.exists_mem_of_ne_nil _ hne with ⟨y, hy⟩
      have hy_le : y ≤ max_vec_sim vm src.category := mem_le_foldl_max _ 0 y hy
      have hy_ge : (0 : ℝ) ≤ y := hsims_nonneg y hy
      have : y = max_vec_sim vm src.category := by
        rw [max_vec_sim, h0]
        exact le_antisymm (by rw [max_vec_sim, h0] at hy_le; exact hy_le) hy_ge
      rw [← this]
      exact hy
    · exact hmem

/-- Fixture: the keyword match produced for `"cough"` (score 1, priority 1,
`final_score = 2`). -/
def cmFix : String × KeywordMatch :=
  ("respiratory",
   { score := 1, priority := 1, matched_keywords := ["cough"], final_score := 2 })

/-- Fixture: the knowledge source fused from `cmFix` with no vector hits. -/
noncomputable def fuseFixSrc : KnowledgeSource :=
  mkKnowledgeSource ("respiratory", seedEntry cmFix)

/-- Fusing the single keyword match `cmFix` with no vector hits yields the
single fixture source. -/
theorem fuse_and_rank_cmFix : fuse_and_rank [cmFix] [] = [fuseFixSrc] := by
  simp only [fuse_and_rank, List.map_cons, List.map_nil, List.foldl_nil, fuseFixSrc]
  exact mergeSort_single ksGE _

/-- Witness for C5 at a concrete one-category keyword signal and an empty
vector signal. -/
theorem fusion_formula_witness :
    (fuseFixSrc.relevance_score =
      if kw_final_score [cmFix] fuseFixSrc.category ≠ 0
          ∧ max_vec_sim [] fuseFixSrc.category ≠ 0
      then ((kw_final_score [cmFix] fuseFixSrc.category : ℝ) * 0.6
            + max_vec_sim [] fuseFixSrc.category * 0.4) * 1.2
      else (kw_final_score [cmFix] fuseFixSrc.category : ℝ) * 0.6
            + max_vec_sim [] fuseFixSrc.category * 0.4) ∧
    (∀ x ∈ catSims fuseFixSrc.category [], x ≤ max_vec_sim [] fuseFixSrc.category) ∧
    (catSims fuseFixSrc.category [] ≠ [] →
      max_vec_sim [] fuseFixSrc.category ∈ catSims fuseFixSrc.category []) := by
  exact fusion_formula [cmFix] [] (by decide) (fun hit h => absurd h (List.not_mem_nil hit))
    fuseFixSrc (fuse_and_rank_cmFix ▸ List.mem_singleton.mpr rfl)

/-- With no active default configuration the per-category searches all
raise, `_search_by_vector` swallows each failure, and the vector pass
returns no hits and leaves the store untouched. -/
theorem search_by_vector_no_config (cfgs : List VectorEmbeddingConfig)
    (oracle : Except String (List ℚ))
    (hno : default_active_configs cfgs = []) (cats : List String)
    (store : List KnowledgeBaseChunk) :
    search_by_vector cfgs oracle store cats = ([], store) := by
  have hsearch : ∀ (store' : List KnowledgeBaseChunk) (cat : String),
      search_similar_chunks cfgs oracle store' (some cat) 5 0.6
        = Except.error "No active embedding configuration found" := by
    intro store' cat
    simp [search_similar_chunks, generate_embedding, hno, Except.map]
  simp only [search_by_vector]
  have hfold : ∀ (cats' : List String),
      cats'.foldl
        (fun (st : List (SearchResult × String) × List KnowledgeBaseChunk) category =>
          match search_similar_chunks cfgs oracle st.2 (some category) 5 0.6 with
          | .ok rs => (st.1 ++ rs.1.map (fun r => (r, category)), rs.2)
          | .error _ => st)
        ([], store) = ([], store) := by
    intro cats'
    induction cats' with
    | nil => rfl
    | cons c cs ih =>
      rw [List.foldl_cons]
      rw [show (match search_similar_chunks cfgs oracle
          (([], store) : List (SearchResult × String) × List KnowledgeBaseChunk).2
          (some c) 5 0.6 with
        | .ok rs => ((([], store).1 : List (SearchResult × String))
            ++ rs.1.map (fun r => (r, c)), rs.2)
        | .error _ => (([], store) : List (SearchResult × String) × List KnowledgeBaseChunk))
          = ([], store) from by rw [hsearch store c]]
      exact ih
  rw [hfold cats]
  simp

/-- Claim C2 amended: with `use_vector_search = true` and no active
embedding configuration, every per-category `search_similar_chunks` call
does raise the explicit "No active embedding configuration found" error,
but `_search_by_vector` catches it per category (and the outer `try/except`
would catch anything else): `select_knowledge_bases` succeeds and returns
exactly the keyword-only result of a `use_vector_search = false` call —
no error ever propagates to the caller. -/
theorem select_no_config_fallback (cfgs : List VectorEmbeddingConfig)
    (oracle : Except String (List ℚ)) (store : List KnowledgeBaseChunk)
    (symptoms : String) (age : Option Nat) (gender : Option String) (k : Nat)
    (hno : default_active_configs cfgs = []) :
    (∀ (store' : List KnowledgeBaseChunk) (cat : String) (topk : Nat) (ms : ℝ),
      search_similar_chunks cfgs oracle store' (some cat) topk ms
        = Except.error "No active embedding configuration found") ∧
    select_knowledge_bases cfgs oracle store symptoms age gender k true
      = select_knowledge_bases cfgs oracle store symptoms age gender k false := by
  constructor
  · intro store' cat topk ms
    simp [search_similar_chunks, generate_embedding, hno, Except.map]
  · simp only [select_knowledge_bases,
      search_by_vector_no_config cfgs oracle hno, if_true, if_false]
    rfl

/-- Witness for C2's amended theorem: an empty configuration table, a
keyword-matching symptom, vector search requested. -/
theorem select_no_config_fallback_witness :
    (∀ (store' : List KnowledgeBaseChunk) (cat : String) (topk : Nat) (ms : ℝ),
      search_similar_chunks [] (Except.error "connection refused") store'
          (some cat) topk ms
        = Except.error "No active embedding configuration found") ∧
    select_knowledge_bases [] (Except.error "connection refused") [] "cough"
        none none 3 true
      = select_knowledge_bases [] (Except.error "connection refused") [] "cough"
        none none 3 false :=
  select_no_config_fallback [] (Except.error "connection refused") [] "cough"
    none none 3 rfl

/-- Claim C2 counterexample: with `use_vector_search = true`, zero active
configurations, and the symptom `"cough"`, the query embedding call fails
with the explicit `ValueError`, yet `select_knowledge_bases` returns a
**successful** result whose single source is built from the keyword match
alone — refuting "the call fails with an explicit error propagated to the
caller; it never returns a successful RetrievalResult built from keyword
matches alone". -/
theorem select_swallow_counterexample :
    search_similar_chunks [] (Except.error "connection refused") []
        (some "respiratory") 5 (0.6 : ℝ)
      = Except.error "No active embedding configuration found" ∧
    (select_knowledge_bases [] (Except.error "connection refused") [] "cough"
        none none 3 true).1.sources = [fuseFixSrc] := by
  constructor
  · simp [search_similar_chunks, generate_embedding, default_active_configs,
      Except.map]
  · have hkm : match_by_keywords "cough" none = [cmFix] := by
      have h1 : keyword_candidates "cough" none = [cmFix] := by decide
      rw [match_by_keywords, h1]
      exact mergeSort_single kwmGE _
    simp only [select_knowledge_bases, hkm, if_true]
    rw [show ([cmFix].map (fun cm => cm.1)) = ["respiratory"] from rfl]
    rw [search_by_vector_no_config [] (Except.error "connection refused") rfl
      ["respiratory"] []]
    simp only [fuse_and_rank_cmFix]
    rfl

end MediCareAI
